import Mathlib

/-!
Shallow embedding of the scene-export plugin (src/common.py and
src/sceneExport_functions.py) together with proofs about its paginated
bulk-extraction loop, per-record transform, persistence step and
progress reporting.

Modelling conventions:
* Python dictionaries for scenes become the `RawScene` structure; the only
  fields the code reads are `id`, `title` (possibly null/empty), `files`
  (list of file descriptors, each with `path` and `duration`) and
  `paths.sprite`.
* Python floats are modelled as exact rationals (`Rat`); every progress
  computation in the source is a ratio of integers, so the rational model
  is exact.
* Python exceptions are modelled explicitly: `extract_scene_metadata`
  returns `none` where the source raises `IndexError`
  (`scene["files"][0]` on an empty list), and the file write in
  `save_json` takes a `WriteOutcome` describing whether `open`/`json.dump`
  succeed, raise `OSError`, or raise `requests.exceptions.RequestException`.
  Uncaught exceptions propagate as `Except.error`.
* The remote server (`stash.find_scenes`) is an abstract pure function
  `fetch : Nat → Nat × List RawScene` mapping a 1-based page index to the
  pair (total count, records of that page); `serverFetch all` is the
  consistent paged server over a fixed record list `all`, returning
  `all.length` as the count and the corresponding 120-record slice.
* Calls observable from the outside are accumulated in the returned
  structures: `fetchCalls` counts `find_scenes` calls (one per loop
  iteration), `emitted` records the raw values passed to
  `stash_log(..., lvl="progress")`, `savedData` records the data handed to
  `save_json` (if any).
-/

namespace SceneExport

/-- The fixed page size of the extraction loop (`batch = 120` in
`get_scenes_metadata`; the same constant is passed as `per_page`). -/
def batch : Nat := 120

/-- One file descriptor of a scene: the fields of `scene["files"][i]` that
the code reads (`path` and `duration`). -/
structure RawFile where
  path : String
  duration : Rat
deriving DecidableEq, Repr

/-- A raw scene record as delivered by the server.  `title` is an optional
string (Python may hold `None` there, and the code tests it for
truthiness, so `none` and `some ""` both count as absent). -/
structure RawScene where
  id : String
  title : Option String
  files : List RawFile
  sprite : String
deriving DecidableEq, Repr

/-- The normalized metadata dictionary built by `extract_scene_metadata`. -/
structure NormalizedRecord where
  id : String
  title : String
  filename : String
  duration : Rat
  sprites : String
deriving DecidableEq, Repr

/-- Python exceptions that can escape the modelled code paths. -/
inductive PyError
  | indexError
  | osError
deriving DecidableEq, Repr

/-- The possible behaviours of the file write in `save_json`
(`open(file_path, "w")` followed by `json.dump`). -/
inductive WriteOutcome
  | success
  | osError
  | requestException
deriving DecidableEq, Repr

/-- Model of `os.path.basename` for POSIX paths: the suffix of the string after the
last `/` (translated to character-list operations). -/
def basename (p : String) : String :=
  ⟨(p.data.reverse.takeWhile (fun c => c ≠ '/')).reverse⟩

/-- Python `s.split("/")[-1]`: the last `/`-separated segment of `s`,
i.e. the suffix after the last `/`. -/
def splitSlashLast (p : String) : String :=
  ⟨(p.data.reverse.takeWhile (fun c => c ≠ '/')).reverse⟩

/-- Model of `scene["title"] if scene["title"] else filename`: Python truthiness of
the optional title (both `None` and `""` are falsy). -/
def titleOrFilename (t : Option String) (filename : String) : String :=
  match t with
  | none => filename
  | some s => if s = "" then filename else s

/-- Model of `extract_scene_metadata(scene)`.  The source starts with
`file = scene["files"][0]`, which raises `IndexError` when the file list
is empty; that exceptional outcome is modelled as `none`. -/
def extract_scene_metadata (scene : RawScene) : Option NormalizedRecord :=
  match scene.files with
  | [] => none
  | file :: _ =>
    let filename := splitSlashLast (basename file.path)
    some
      { id := scene.id
        title := titleOrFilename scene.title filename
        filename := filename
        duration := file.duration
        sprites := scene.sprite }

/-- The `lvl == "progress"` branch of `stash_log`: the value is clamped by
`min(max(0, float(args[0])), 1)` before being handed to `log.progress`. -/
def stash_log_progress (x : Rat) : Rat := min (max 0 x) 1

/-- The inner `for i in range(num_scenes)` loop of `get_scenes_metadata`
over one page.  State threaded through: `cur` is the Python variable
`_current` (an `int`, which goes negative on the first page), and per
record the loop does `_current -= 1`, computes
`progress = (total - _current) / total`, passes it to `stash_log`, and
appends `extract_scene_metadata(scene)` to the results.  Returns the final
`_current`, the raw progress values passed to `stash_log`, the appended
records, and the first uncaught exception, if any (an `IndexError` raised
by `extract_scene_metadata` aborts the whole loop). -/
def processPage (total : Nat) (cur : Int) (scenes : List RawScene) :
    Int × List Rat × List NormalizedRecord × Option PyError :=
  match scenes with
  | [] => (cur, [], [], none)
  | scene :: rest =>
    let cur' := cur - 1
    let progress : Rat := ((total : Rat) - (cur' : Rat)) / (total : Rat)
    match extract_scene_metadata scene with
    | none => (cur', [progress], [], some .indexError)
    | some m =>
      let r := processPage total cur' rest
      (r.1, progress :: r.2.1, m :: r.2.2.1, r.2.2.2)

/-- Observable outcome of the `while True` loop of `get_scenes_metadata`. -/
structure RunState where
  fetchCalls : Nat
  emitted : List Rat
  results : List NormalizedRecord
  err : Option PyError
deriving DecidableEq, Repr

/-- The `while True` loop of `get_scenes_metadata`, with the frozen
`total` (set from the count of the first fetch) and `k = counter - 1`
(so the iteration with parameter `k` fetches page `k + 1`).  Each
iteration fetches its page, recomputes `_current = batch * (counter - 1)`,
breaks when `_current >= total`, and otherwise processes every record of
the fetched page and continues with the next counter value. -/
def scenesLoop (fetch : Nat → Nat × List RawScene) (total : Nat) (k : Nat) :
    RunState :=
  if _h : total ≤ batch * k then
    { fetchCalls := 1, emitted := [], results := [], err := none }
  else
    match processPage total ((batch * k : Nat) : Int) (fetch (k + 1)).2 with
    | (_, ps, rs, none) =>
      let rest := scenesLoop fetch total (k + 1)
      { fetchCalls := rest.fetchCalls + 1
        emitted := ps ++ rest.emitted
        results := rs ++ rest.results
        err := rest.err }
    | (_, ps, rs, some e) =>
      { fetchCalls := 1, emitted := ps, results := rs, err := some e }
termination_by total - batch * k
decreasing_by simp only [batch] at *; omega

/-- Model of `save_json(data, filename)`: builds the target path from the output
directory and writes the JSON file.  The `except` clause of the source
catches only `requests.exceptions.RequestException` (logging an error and
returning `None`); an `OSError` raised by `open`/`json.dump` is not
caught and propagates. -/
def save_json (outputDir : String) (data : List NormalizedRecord)
    (filename : String) (w : WriteOutcome) : Except PyError (Option String) :=
  let directory := if outputDir.data.getLast? = some '/' then outputDir else outputDir ++ "/"
  let file_path := directory ++ filename
  match w with
  | .success => .ok (some file_path)
  | .osError => .error .osError
  | .requestException => .ok none

/-- Observable outcome of one call of `get_scenes_metadata`. -/
structure RunResult where
  fetchCalls : Nat
  emitted : List Rat
  results : List NormalizedRecord
  savedData : Option (List NormalizedRecord)
  outcome : Except PyError (Option String)
deriving Repr

/-- Model of `get_scenes_metadata(stash)`.  The server is the abstract `fetch`
function; `total = int(_current)` is frozen from the count returned by the
first fetch (page 1).  After the loop, `if results:` hands the accumulated
list to `save_json` (with the timestamped filename) and returns its value,
otherwise the function returns `None`.  An exception raised inside the
loop propagates before any write. -/
def get_scenes_metadata (fetch : Nat → Nat × List RawScene)
    (outputDir : String) (w : WriteOutcome) (ts : String) : RunResult :=
  let total := (fetch 1).1
  let st := scenesLoop fetch total 0
  { fetchCalls := st.fetchCalls
    emitted := st.emitted
    results := st.results
    savedData := if st.err = none ∧ st.results ≠ [] then some st.results else none
    outcome :=
      match st.err with
      | some e => .error e
      | none =>
        if st.results = [] then .ok none
        else save_json outputDir st.results ("stash_metadata_" ++ ts ++ ".json") w }

/-- What the plugin prints on exit: `exit_plugin` emits a JSON object with
an `output` message or an `error` message. -/
inductive PluginOutput
  | output (msg : String)
  | error (msg : String)
deriving DecidableEq, Repr

/-- The `exportAll` branch of `main` in sceneExport_functions.py.  There
is no `try`/`except` around `get_scenes_metadata`: any Python exception
raised inside it propagates out of `main` (an unhandled crash, modelled as
`Except.error`); `exit_plugin(err=...)` is never reached on that path.  On
normal completion the branch calls `exit_plugin(msg="ok")` whether or not
a file was written. -/
def main_exportAll (fetch : Nat → Nat × List RawScene)
    (w : WriteOutcome) (outputDir ts : String) : Except PyError PluginOutput :=
  let run := get_scenes_metadata fetch outputDir w ts
  match run.outcome with
  | .error e => .error e
  | .ok _ => .ok (.output "ok")

/-- A consistent paged server over the fixed record list `all`:
`find_scenes(per_page := 120, page := p)` returns the total count
`all.length` and the `p`-th 120-record slice, as the server contract in
the specification prescribes (the count never changes within a run). -/
def serverFetch (all : List RawScene) : Nat → Nat × List RawScene :=
  fun p => (all.length, (all.drop (batch * (p - 1))).take batch)

/-- Ceiling division on naturals, `⌈a / b⌉`, used to state page-count
properties. -/
def ceilDiv (a b : Nat) : Nat := (a + b - 1) / b

/-- The progress values actually emitted to the observability collaborator
(`log.progress`): each raw value passed to `stash_log` with
`lvl="progress"` is clamped into `[0, 1]` first. -/
def progressEmitted (r : RunResult) : List Rat :=
  r.emitted.map stash_log_progress

/-- A well-formed scene (non-empty file list), used as concrete input. -/
def sceneWF : RawScene :=
  { id := "1", title := some "T"
    files := [{ path := "/a/b.mp4", duration := 3 }], sprite := "s" }

/-- The normalization of `sceneWF`. -/
def normWF : NormalizedRecord :=
  { id := "1", title := "T", filename := "b.mp4", duration := 3, sprites := "s" }

/-- A malformed scene: its file list is empty. -/
def sceneNoFiles : RawScene :=
  { id := "9", title := some "t", files := [], sprite := "s" }

/-- The file descriptor of the specification's scenario record. -/
def file0 : RawFile := { path := "/videos/clip01/movie.mp4", duration := 5 }

/-- The specification's scenario record: empty title, one file. -/
def scene0 : RawScene :=
  { id := "x", title := some "", files := [file0], sprite := "sp" }

/-- A deliberately inconsistent server: count 0, yet every page carries a
record.  Used to exhibit that the payload of the terminating fetch is
ignored. -/
def junkFetch : Nat → Nat × List RawScene := fun _ => (0, [sceneWF])

theorem scenesLoop_break (fetch : Nat → Nat × List RawScene) (total k : Nat)
    (h : total ≤ batch * k) :
    scenesLoop fetch total k = { fetchCalls := 1, emitted := [], results := [], err := none } := by
  rw [scenesLoop]
  simp [h]

theorem scenesLoop_step_ok (fetch : Nat → Nat × List RawScene) (total k : Nat)
    (c : Int) (ps : List Rat) (rs : List NormalizedRecord)
    (h : ¬ total ≤ batch * k)
    (hp : processPage total ((batch * k : Nat) : Int) (fetch (k + 1)).2 = (c, ps, rs, none)) :
    scenesLoop fetch total k =
      { fetchCalls := (scenesLoop fetch total (k + 1)).fetchCalls + 1
        emitted := ps ++ (scenesLoop fetch total (k + 1)).emitted
        results := rs ++ (scenesLoop fetch total (k + 1)).results
        err := (scenesLoop fetch total (k + 1)).err } := by
  conv_lhs => rw [scenesLoop]
  rw [dif_neg h, hp]

theorem scenesLoop_step_err (fetch : Nat → Nat × List RawScene) (total k : Nat)
    (c : Int) (ps : List Rat) (rs : List NormalizedRecord) (e : PyError)
    (h : ¬ total ≤ batch * k)
    (hp : processPage total ((batch * k : Nat) : Int) (fetch (k + 1)).2 = (c, ps, rs, some e)) :
    scenesLoop fetch total k = { fetchCalls := 1, emitted := ps, results := rs, err := some e } := by
  conv_lhs => rw [scenesLoop]
  rw [dif_neg h, hp]

/-- Characterization of the per-page loop when every scene on the page has
a non-empty file list: the final `_current` dropped by the page length,
one raw progress value `(total - (cur - (i+1))) / total` per record, the
in-order transforms, and no exception. -/
theorem processPage_wf (total : Nat) :
    ∀ (scenes : List RawScene) (cur : Int),
      (∀ sc ∈ scenes, sc.files ≠ []) →
      processPage total cur scenes =
        (cur - scenes.length,
         (List.range scenes.length).map
           (fun (i : Nat) => ((total : Rat) - ((cur : Rat) - ((i : Rat) + 1))) / (total : Rat)),
         scenes.filterMap extract_scene_metadata,
         none) := by
  intro scenes
  induction scenes with
  | nil => intro cur _; simp [processPage]
  | cons scene rest ih =>
    intro cur hwf
    have hfiles : scene.files ≠ [] := hwf scene (List.mem_cons_self _ _)
    obtain ⟨f, fs, hf⟩ : ∃ f fs, scene.files = f :: fs := by
      cases hfl : scene.files with
      | nil => exact absurd hfl hfiles
      | cons a l => exact ⟨a, l, rfl⟩
    have hsome : ∃ m, extract_scene_metadata scene = some m := by
      rw [extract_scene_metadata, hf]; exact ⟨_, rfl⟩
    obtain ⟨m, hm⟩ := hsome
    have hrest := ih (cur - 1) (fun sc hsc => hwf sc (List.mem_cons_of_mem _ hsc))
    rw [processPage, hm, hrest]
    refine Prod.ext ?_ (Prod.ext ?_ (Prod.ext ?_ rfl))
    · simp; ring
    · simp only [List.length_cons, List.range_succ_eq_map, List.map_cons, List.map_map]
      congr 1
      · push_cast; ring
      · refine List.map_congr_left ?_
        intro i _
        simp only [Function.comp_apply]
        push_cast
        ring
    · simp [List.filterMap_cons, hm]

/-- Full characterization of the loop against the consistent paged server
when every record is well formed: from counter position `k` the loop
appends exactly the transforms of the records from index `batch * k` on,
raises no exception, and performs `⌈(total - batch*k) / 120⌉ + 1` further
fetches. -/
theorem scenesLoop_server (all : List RawScene)
    (hwf : ∀ sc ∈ all, sc.files ≠ []) :
    ∀ (m k : Nat), all.length - batch * k = m →
      (scenesLoop (serverFetch all) all.length k).results
          = (all.drop (batch * k)).filterMap extract_scene_metadata ∧
      (scenesLoop (serverFetch all) all.length k).err = none ∧
      (scenesLoop (serverFetch all) all.length k).fetchCalls
          = (all.length - batch * k + 119) / 120 + 1 := by
  intro m
  induction m using Nat.strong_induction_on with
  | _ m ih =>
    intro k hm
    by_cases h : all.length ≤ batch * k
    · rw [scenesLoop_break _ _ _ h]
      refine ⟨?_, rfl, ?_⟩
      · simp [List.drop_eq_nil_of_le h]
      · have h0 : all.length - batch * k = 0 := Nat.sub_eq_zero_of_le h
        simp [h0]
    · have hpage : (serverFetch all (k + 1)).2 = (all.drop (batch * k)).take batch := by
        simp [serverFetch]
      have hwfpage : ∀ sc ∈ (all.drop (batch * k)).take batch, sc.files ≠ [] :=
        fun sc hsc => hwf sc (List.mem_of_mem_drop (List.mem_of_mem_take hsc))
      have hp := processPage_wf all.length ((all.drop (batch * k)).take batch)
        ((batch * k : Nat) : Int) hwfpage
      rw [scenesLoop_step_ok _ _ _ _ _ _ h (by rw [hpage]; exact hp)]
      dsimp only
      have hb : batch = 120 := rfl
      have hlt : all.length - batch * (k + 1) < m := by
        rw [hb] at hm h ⊢; omega
      obtain ⟨ihres, iherr, ihfc⟩ :=
        ih (all.length - batch * (k + 1)) hlt (k + 1) rfl
      refine ⟨?_, iherr, ?_⟩
      · rw [ihres, ← List.filterMap_append]
        congr 1
        have hdd : all.drop (batch * (k + 1)) = (all.drop (batch * k)).drop batch := by
          rw [List.drop_drop, Nat.mul_succ]
        rw [hdd, List.take_append_drop]
      · rw [ihfc]
        rw [hb] at h ⊢
        omega

/-- Generic upper bound on the number of fetches from counter position
`k`, valid for any server behaviour (including runs aborted by an
exception): at most `⌈(total - batch*k) / 120⌉ + 1`. -/
theorem scenesLoop_fetchCalls_le (fetch : Nat → Nat × List RawScene) (total : Nat) :
    ∀ (m k : Nat), total - batch * k = m →
      (scenesLoop fetch total k).fetchCalls
        ≤ (total - batch * k + 119) / 120 + 1 := by
  intro m
  induction m using Nat.strong_induction_on with
  | _ m ih =>
    intro k hm
    by_cases h : total ≤ batch * k
    · rw [scenesLoop_break _ _ _ h]
      exact Nat.succ_le_succ (Nat.zero_le _)
    · rcases hp : processPage total ((batch * k : Nat) : Int) (fetch (k + 1)).2
        with ⟨c, ps, rs, e⟩
      cases e with
      | some err =>
        rw [scenesLoop_step_err _ _ _ _ _ _ _ h hp]
        exact Nat.succ_le_succ (Nat.zero_le _)
      | none =>
        rw [scenesLoop_step_ok _ _ _ _ _ _ h hp]
        dsimp only
        have hb : batch = 120 := rfl
        have hlt : total - batch * (k + 1) < m := by rw [hb] at hm h ⊢; omega
        have hih := ih (total - batch * (k + 1)) hlt (k + 1) rfl
        rw [hb] at h hih ⊢
        omega

/-- Under well-formed input, the filtered transform keeps every record. -/
theorem length_filterMap_extract (all : List RawScene)
    (hwf : ∀ sc ∈ all, sc.files ≠ []) :
    (all.filterMap extract_scene_metadata).length = all.length := by
  induction all with
  | nil => rfl
  | cons scene rest ih =>
    have hfiles : scene.files ≠ [] := hwf scene (List.mem_cons_self _ _)
    obtain ⟨f, fs, hf⟩ : ∃ f fs, scene.files = f :: fs := by
      cases hfl : scene.files with
      | nil => exact absurd hfl hfiles
      | cons a l => exact ⟨a, l, rfl⟩
    have hsome : ∃ m, extract_scene_metadata scene = some m := by
      rw [extract_scene_metadata, hf]; exact ⟨_, rfl⟩
    obtain ⟨m, hm⟩ := hsome
    simp [List.filterMap_cons, hm,
      ih (fun sc hsc => hwf sc (List.mem_cons_of_mem _ hsc))]

/-- The count returned by the first fetch of the consistent server. -/
theorem serverFetch_total (all : List RawScene) : (serverFetch all 1).1 = all.length := rfl

/-- Results of a full run against the consistent server, well-formed input. -/
theorem run_server_results (all : List RawScene) (dir ts : String) (w : WriteOutcome)
    (hwf : ∀ sc ∈ all, sc.files ≠ []) :
    (get_scenes_metadata (serverFetch all) dir w ts).results
      = all.filterMap extract_scene_metadata := by
  obtain ⟨hres, -, -⟩ := scenesLoop_server all hwf (all.length - batch * 0) 0 rfl
  simp only [get_scenes_metadata, serverFetch_total]
  simpa using hres

/-- Fetch count of a full run against the consistent server, well-formed input. -/
theorem run_server_fetchCalls (all : List RawScene) (dir ts : String) (w : WriteOutcome)
    (hwf : ∀ sc ∈ all, sc.files ≠ []) :
    (get_scenes_metadata (serverFetch all) dir w ts).fetchCalls
      = (all.length + 119) / 120 + 1 := by
  obtain ⟨-, -, hfc⟩ := scenesLoop_server all hwf (all.length - batch * 0) 0 rfl
  simp only [get_scenes_metadata, serverFetch_total]
  simpa using hfc

/-- The loop raises nothing on well-formed input, so the run's `savedData`
and `outcome` are decided by emptiness of the accumulated results. -/
theorem run_server_outcome (all : List RawScene) (dir ts : String) (w : WriteOutcome)
    (hwf : ∀ sc ∈ all, sc.files ≠ []) :
    (get_scenes_metadata (serverFetch all) dir w ts).savedData
        = (if (get_scenes_metadata (serverFetch all) dir w ts).results = []
           then none else some (get_scenes_metadata (serverFetch all) dir w ts).results) ∧
    (get_scenes_metadata (serverFetch all) dir w ts).outcome
        = (if (get_scenes_metadata (serverFetch all) dir w ts).results = []
           then Except.ok none
           else save_json dir (get_scenes_metadata (serverFetch all) dir w ts).results
                  ("stash_metadata_" ++ ts ++ ".json") w) := by
  obtain ⟨-, herr, -⟩ := scenesLoop_server all hwf (all.length - batch * 0) 0 rfl
  simp only [get_scenes_metadata, serverFetch_total, herr]
  by_cases hr : (scenesLoop (serverFetch all) all.length 0).results = [] <;>
    simp [hr]

/-- Concrete run over the empty catalog. -/
theorem run_empty_eval (dir ts : String) (w : WriteOutcome) :
    get_scenes_metadata (serverFetch []) dir w ts =
      { fetchCalls := 1, emitted := [], results := [], savedData := none,
        outcome := .ok none } := by
  have hb : scenesLoop (serverFetch []) 0 0 = ⟨1, [], [], none⟩ :=
    scenesLoop_break _ _ _ (Nat.le_refl 0)
  simp only [get_scenes_metadata, serverFetch_total, List.length_nil, hb]
  rfl

/-- Concrete run over a one-scene catalog: two fetches (the second page is
fetched, found past the end and discarded), one raw progress value 2
(clamped to 1 on emission), one result, one file written. -/
theorem run_one_eval (dir ts : String) (w : WriteOutcome) :
    get_scenes_metadata (serverFetch [sceneWF]) dir w ts =
      { fetchCalls := 2, emitted := [2], results := [normWF],
        savedData := some [normWF],
        outcome := save_json dir [normWF] ("stash_metadata_" ++ ts ++ ".json") w } := by
  have h0 : ¬ (1 : Nat) ≤ batch * 0 := by decide
  have hwf1 : ∀ sc ∈ [sceneWF], sc.files ≠ [] := by simp [sceneWF]
  have hp : processPage 1 ((batch * 0 : Nat) : Int) ((serverFetch [sceneWF] 1).2)
      = (-1, [2], [normWF], none) := by
    have hpage : (serverFetch [sceneWF] 1).2 = [sceneWF] := rfl
    rw [hpage, processPage_wf 1 [sceneWF] _ hwf1]
    refine Prod.ext ?_ (Prod.ext ?_ (Prod.ext ?_ rfl))
    · decide
    · simp only [List.length_cons, List.length_nil, List.range_succ, List.range_zero,
        List.nil_append, List.map_cons, List.map_nil]
      norm_num [batch]
    · rfl
  have hstep := scenesLoop_step_ok (serverFetch [sceneWF]) 1 0 (-1) [2] [normWF] h0 hp
  have hbreak : scenesLoop (serverFetch [sceneWF]) 1 1 = ⟨1, [], [], none⟩ :=
    scenesLoop_break _ _ _ (by decide)
  rw [hbreak] at hstep
  simp only [get_scenes_metadata, serverFetch_total, List.length_cons, List.length_nil, hstep]
  rfl

/-- Concrete run over a catalog holding a single malformed scene: the
first-file access raises `IndexError` after the first progress emission;
nothing is appended and nothing is written, and the exception propagates
out of `get_scenes_metadata`. -/
theorem run_nofiles_eval (dir ts : String) (w : WriteOutcome) :
    get_scenes_metadata (serverFetch [sceneNoFiles]) dir w ts =
      { fetchCalls := 1, emitted := [2], results := [], savedData := none,
        outcome := .error .indexError } := by
  have h0 : ¬ (1 : Nat) ≤ batch * 0 := by decide
  have hp : processPage 1 ((batch * 0 : Nat) : Int) ((serverFetch [sceneNoFiles] 1).2)
      = (-1, [2], [], some .indexError) := by
    have hpage : (serverFetch [sceneNoFiles] 1).2 = [sceneNoFiles] := rfl
    rw [hpage]
    simp only [processPage, sceneNoFiles, extract_scene_metadata]
    refine Prod.ext ?_ (Prod.ext ?_ rfl)
    · decide
    · norm_num [batch]
  have hstep := scenesLoop_step_err (serverFetch [sceneNoFiles]) 1 0 (-1) [2] [] .indexError h0 hp
  simp only [get_scenes_metadata, serverFetch_total, List.length_cons, List.length_nil, hstep]
  rfl

/-- Frame property of the loop: two servers that agree on every page `p`
with `batch * (p - 1) < total` (the pages fetched before the terminating
test fires) drive the loop to identical outcomes; the payload of the
terminating fetch is never inspected. -/
theorem scenesLoop_congr (f g : Nat → Nat × List RawScene) (total : Nat)
    (hagree : ∀ p, 0 < p → batch * (p - 1) < total → f p = g p) :
    ∀ (m k : Nat), total - batch * k = m →
      scenesLoop f total k = scenesLoop g total k := by
  intro m
  induction m using Nat.strong_induction_on with
  | _ m ih =>
    intro k hm
    by_cases h : total ≤ batch * k
    · rw [scenesLoop_break _ _ _ h, scenesLoop_break _ _ _ h]
    · have hfg : f (k + 1) = g (k + 1) :=
        hagree (k + 1) (Nat.succ_pos k)
          (by simp only [Nat.add_sub_cancel]; exact Nat.lt_of_not_le h)
      rcases hp : processPage total ((batch * k : Nat) : Int) (f (k + 1)).2
        with ⟨c, ps, rs, e⟩
      have hp2 : processPage total ((batch * k : Nat) : Int) (g (k + 1)).2
          = (c, ps, rs, e) := by rw [← hfg]; exact hp
      cases e with
      | some err =>
        rw [scenesLoop_step_err _ _ _ _ _ _ _ h hp,
          scenesLoop_step_err _ _ _ _ _ _ _ h hp2]
      | none =>
        have hb : batch = 120 := rfl
        have hlt : total - batch * (k + 1) < m := by rw [hb] at hm h ⊢; omega
        rw [scenesLoop_step_ok _ _ _ _ _ _ h hp,
          scenesLoop_step_ok _ _ _ _ _ _ h hp2,
          ih (total - batch * (k + 1)) hlt (k + 1) rfl]

/-- Raw progress values of the two-page run over 121 identical well-formed
scenes: page 1 contributes `(121 - (0 - (i+1)))/121` for `i < 120` (all
greater than 1), page 2 contributes the single value `(121 - 119)/121`. -/
theorem run_121_emitted (dir ts : String) (w : WriteOutcome) :
    (get_scenes_metadata (serverFetch (List.replicate 121 sceneWF)) dir w ts).emitted
      = (List.range 120).map
          (fun (i : Nat) =>
            ((121 : Rat) - (((batch * 0 : Nat) : Int) - ((i : Rat) + 1))) / (121 : Rat))
        ++ (List.range 1).map
          (fun (i : Nat) =>
            ((121 : Rat) - (((batch * 1 : Nat) : Int) - ((i : Rat) + 1))) / (121 : Rat)) := by
  have hwf : ∀ sc ∈ List.replicate 121 sceneWF, sc.files ≠ [] := by
    intro sc hsc
    rw [List.eq_of_mem_replicate hsc]
    simp [sceneWF]
  have hpage1 : (serverFetch (List.replicate 121 sceneWF) 1).2
      = List.replicate 120 sceneWF := by
    simp [serverFetch, batch, List.take_replicate]
  have hpage2 : (serverFetch (List.replicate 121 sceneWF) 2).2
      = List.replicate 1 sceneWF := by
    simp [serverFetch, batch, List.take_replicate, List.drop_replicate]
  have hwf1 : ∀ sc ∈ List.replicate 120 sceneWF, sc.files ≠ [] := by
    intro sc hsc
    rw [List.eq_of_mem_replicate hsc]
    simp [sceneWF]
  have hwf2 : ∀ sc ∈ List.replicate 1 sceneWF, sc.files ≠ [] := by
    intro sc hsc
    rw [List.eq_of_mem_replicate hsc]
    simp [sceneWF]
  have h0 : ¬ (121 : Nat) ≤ batch * 0 := by decide
  have h1 : ¬ (121 : Nat) ≤ batch * 1 := by decide
  have h2 : (121 : Nat) ≤ batch * 2 := by decide
  have hp1 := processPage_wf 121 (List.replicate 120 sceneWF)
    ((batch * 0 : Nat) : Int) hwf1
  have hp2 := processPage_wf 121 (List.replicate 1 sceneWF)
    ((batch * 1 : Nat) : Int) hwf2
  rw [List.length_replicate] at hp1 hp2
  have hstep1 := scenesLoop_step_ok (serverFetch (List.replicate 121 sceneWF)) 121 0
    _ _ _ h0 (by rw [hpage1]; exact hp1)
  have hstep2 := scenesLoop_step_ok (serverFetch (List.replicate 121 sceneWF)) 121 1
    _ _ _ h1 (by rw [hpage2]; exact hp2)
  have hbreak := scenesLoop_break (serverFetch (List.replicate 121 sceneWF)) 121 2 h2
  rw [hbreak] at hstep2
  rw [hstep2] at hstep1
  simp only [get_scenes_metadata, serverFetch_total, List.length_replicate, hstep1]
  simp

/-- Idempotence of `takeWhile`. -/
theorem takeWhile_self_idem {α : Type} (q : α → Bool) (l : List α) :
    (l.takeWhile q).takeWhile q = l.takeWhile q := by
  induction l with
  | nil => rfl
  | cons a t ih =>
    by_cases hq : q a
    · simp [List.takeWhile_cons, hq, ih]
    · simp [List.takeWhile_cons, hq]

/-- Taking the last `/`-separated segment of a POSIX basename changes
nothing: the basename already holds no `/`. -/
theorem splitSlashLast_basename (p : String) :
    splitSlashLast (basename p) = basename p := by
  simp only [splitSlashLast, basename]
  congr 1
  rw [List.reverse_reverse]
  congr 1
  exact takeWhile_self_idem _ _

/-! ## Claim theorems -/

/-- C1 (counterexample): the claim predicts exactly `ceil(150/120) = 2`
fetch calls for a run over 150 records, but the run performs 3: the
termination test runs only after the iteration's fetch, so one extra page
past the end is always requested. -/
theorem claim1_counterexample :
    (get_scenes_metadata (serverFetch (List.replicate 150 sceneWF)) "out"
        WriteOutcome.success "ts").fetchCalls = 3 ∧
    ceilDiv 150 batch = 2 := by
  constructor
  · rw [run_server_fetchCalls (List.replicate 150 sceneWF) "out" "ts" WriteOutcome.success
      (fun sc hsc => by rw [List.eq_of_mem_replicate hsc]; simp [sceneWF])]
    rw [List.length_replicate]
  · decide

/-- C1 (amended): over a consistent server holding `total_count` records,
all well formed, the extraction loop calls `fetch_page` exactly
`ceil(total_count / 120) + 1` times when `total_count > 0` and exactly
once when `total_count = 0` (`ceilDiv 0 120 = 0`); in particular a run
with 150 records performs 3 fetch calls. -/
theorem claim1_amended (all : List RawScene) (dir ts : String) (w : WriteOutcome)
    (hwf : ∀ sc ∈ all, sc.files ≠ []) :
    (get_scenes_metadata (serverFetch all) dir w ts).fetchCalls
      = ceilDiv all.length batch + 1 := by
  rw [run_server_fetchCalls all dir ts w hwf]
  have hb : batch = 120 := rfl
  simp only [ceilDiv, hb]
  omega

/-- Witness for C1 (amended) at the empty catalog. -/
theorem claim1_witness :
    (∀ sc ∈ ([] : List RawScene), sc.files ≠ []) ∧
    (get_scenes_metadata (serverFetch []) "out" WriteOutcome.success "ts").fetchCalls
      = ceilDiv (List.length ([] : List RawScene)) batch + 1 :=
  ⟨by simp, claim1_amended [] "out" "ts" WriteOutcome.success (by simp)⟩

/-- C2: over a consistent server with no malformed record, the run's
results are exactly the in-order transforms of all server-side records —
one `NormalizedRecord` per `RawRecord`, no duplicates, no gaps, original
order — and the length equals the total count. -/
theorem claim2 (all : List RawScene) (dir ts : String) (w : WriteOutcome)
    (hwf : ∀ sc ∈ all, sc.files ≠ []) :
    (get_scenes_metadata (serverFetch all) dir w ts).results
        = all.filterMap extract_scene_metadata ∧
    (get_scenes_metadata (serverFetch all) dir w ts).results.length = all.length := by
  refine ⟨run_server_results all dir ts w hwf, ?_⟩
  rw [run_server_results all dir ts w hwf]
  exact length_filterMap_extract all hwf

/-- Witness for C2 at a one-record catalog. -/
theorem claim2_witness :
    (∀ sc ∈ [sceneWF], sc.files ≠ []) ∧
    (get_scenes_metadata (serverFetch [sceneWF]) "out" WriteOutcome.success "ts").results
        = [sceneWF].filterMap extract_scene_metadata ∧
    (get_scenes_metadata (serverFetch [sceneWF]) "out" WriteOutcome.success "ts").results.length
        = [sceneWF].length :=
  ⟨by simp [sceneWF],
   claim2 [sceneWF] "out" "ts" WriteOutcome.success (by simp [sceneWF])⟩

/-- C5: for any server behaviour the loop terminates (the model is a
total function over the same decreasing measure the code relies on) after
at most `ceil(total/120) + 1` fetches, and a run with `total = 0` stops on
the first iteration having processed no record and emitted no progress. -/
theorem claim5 (fetch : Nat → Nat × List RawScene) (dir ts : String) (w : WriteOutcome) :
    (get_scenes_metadata fetch dir w ts).fetchCalls ≤ ceilDiv (fetch 1).1 batch + 1 ∧
    ((fetch 1).1 = 0 →
      (get_scenes_metadata fetch dir w ts).fetchCalls = 1 ∧
      (get_scenes_metadata fetch dir w ts).results = [] ∧
      (get_scenes_metadata fetch dir w ts).emitted = []) := by
  constructor
  · have hle := scenesLoop_fetchCalls_le fetch (fetch 1).1 ((fetch 1).1 - batch * 0) 0 rfl
    simp only [get_scenes_metadata]
    have hb : batch = 120 := rfl
    simp only [ceilDiv, hb] at hle ⊢
    omega
  · intro h0
    have hbreak := scenesLoop_break fetch (fetch 1).1 0 (by rw [h0]; exact Nat.zero_le _)
    simp only [get_scenes_metadata, hbreak]
    exact ⟨trivial, trivial, trivial⟩

/-- Witness for C5 at the empty catalog. -/
theorem claim5_witness :
    (get_scenes_metadata (serverFetch []) "out" WriteOutcome.success "ts").fetchCalls
        ≤ ceilDiv ((serverFetch ([] : List RawScene)) 1).1 batch + 1 ∧
    (get_scenes_metadata (serverFetch []) "out" WriteOutcome.success "ts").results = [] :=
  ⟨(claim5 (serverFetch []) "out" "ts" WriteOutcome.success).1,
   ((claim5 (serverFetch []) "out" "ts" WriteOutcome.success).2 rfl).2.1⟩

/-- C3 (code bug): a normally completing two-page run over 121 records
emits a progress sequence that is NOT monotonically non-decreasing and
whose final value is 2/121, not 1: `_current` is re-used as the
already-fetched count, so page 1 yields raw values above 1 (clamped to 1)
and page 2 restarts far below 1.  Index 119 of the emitted sequence holds
1 while the final index 120 holds 2/121 < 1. -/
theorem claim3_code_eval :
    (progressEmitted (get_scenes_metadata (serverFetch (List.replicate 121 sceneWF))
        "out" WriteOutcome.success "ts")).length = 121 ∧
    (progressEmitted (get_scenes_metadata (serverFetch (List.replicate 121 sceneWF))
        "out" WriteOutcome.success "ts"))[119]? = some 1 ∧
    (progressEmitted (get_scenes_metadata (serverFetch (List.replicate 121 sceneWF))
        "out" WriteOutcome.success "ts"))[120]? = some ((2 : Rat) / 121) ∧
    ((2 : Rat) / 121) < 1 ∧
    (get_scenes_metadata (serverFetch (List.replicate 121 sceneWF))
        "out" WriteOutcome.success "ts").outcome
      = Except.ok (some "out/stash_metadata_ts.json") := by
  have hwf : ∀ sc ∈ List.replicate 121 sceneWF, sc.files ≠ [] := by
    intro sc hsc
    rw [List.eq_of_mem_replicate hsc]
    simp [sceneWF]
  have hem := run_121_emitted "out" "ts" WriteOutcome.success
  refine ⟨?_, ?_, ?_, by norm_num, ?_⟩
  · rw [progressEmitted, hem]
    simp only [List.length_map, List.length_append, List.length_range]
  · rw [progressEmitted, hem, List.map_append,
      List.getElem?_append_left (by simp only [List.length_map, List.length_range]; norm_num)]
    rw [List.getElem?_map, List.getElem?_map,
      List.getElem?_range (by norm_num : (119 : Nat) < 120)]
    simp only [Option.map_some']
    congr 1
    rw [stash_log_progress]
    norm_num [batch]
  · rw [progressEmitted, hem, List.map_append,
      List.getElem?_append_right (by simp only [List.length_map, List.length_range]; norm_num)]
    simp only [List.length_map, List.length_range]
    rw [show (120 : Nat) - 120 = 0 from rfl]
    rw [List.getElem?_map, List.getElem?_map,
      List.getElem?_range (by norm_num : (0 : Nat) < 1)]
    simp only [Option.map_some']
    congr 1
    rw [stash_log_progress]
    norm_num [batch]
  · obtain ⟨-, hout⟩ := run_server_outcome (List.replicate 121 sceneWF) "out" "ts"
      WriteOutcome.success hwf
    have hlen : (get_scenes_metadata (serverFetch (List.replicate 121 sceneWF))
        "out" WriteOutcome.success "ts").results.length = 121 := by
      rw [run_server_results (List.replicate 121 sceneWF) "out" "ts"
        WriteOutcome.success hwf,
        length_filterMap_extract (List.replicate 121 sceneWF) hwf,
        List.length_replicate]
    have hne : (get_scenes_metadata (serverFetch (List.replicate 121 sceneWF))
        "out" WriteOutcome.success "ts").results ≠ [] := by
      intro hnil
      rw [hnil] at hlen
      exact absurd hlen (by norm_num)
    rw [hout, if_neg hne]
    rfl

/-- C4 (code bug): a record with no file descriptors makes
`extract_scene_metadata` fail on the first-file access (Python
`IndexError`, not a dedicated `MalformedRecordError`), and the run applies
no skip/abort policy: the exception propagates out of `main` as an
unhandled crash, after the record's progress value was already emitted. -/
theorem claim4_code_eval :
    extract_scene_metadata sceneNoFiles = none ∧
    get_scenes_metadata (serverFetch [sceneNoFiles]) "out" WriteOutcome.success "ts"
      = { fetchCalls := 1, emitted := [2], results := [], savedData := none,
          outcome := .error .indexError } ∧
    main_exportAll (serverFetch [sceneNoFiles]) WriteOutcome.success "out" "ts"
      = .error .indexError := by
  refine ⟨rfl, run_nofiles_eval "out" "ts" WriteOutcome.success, ?_⟩
  simp only [main_exportAll, run_nofiles_eval]

/-- C6: a normally terminating run (well-formed records, successful
write) hands non-empty results to `save_json` and returns the written
file's path; with empty results it writes nothing and returns `None`; in
particular the empty catalog yields no results. -/
theorem claim6 (all : List RawScene) (dir ts : String)
    (hwf : ∀ sc ∈ all, sc.files ≠ []) :
    ((get_scenes_metadata (serverFetch all) dir WriteOutcome.success ts).results ≠ [] →
      (get_scenes_metadata (serverFetch all) dir WriteOutcome.success ts).savedData
          = some (get_scenes_metadata (serverFetch all) dir WriteOutcome.success ts).results ∧
      ∃ p, (get_scenes_metadata (serverFetch all) dir WriteOutcome.success ts).outcome
          = Except.ok (some p)) ∧
    ((get_scenes_metadata (serverFetch all) dir WriteOutcome.success ts).results = [] →
      (get_scenes_metadata (serverFetch all) dir WriteOutcome.success ts).savedData = none ∧
      (get_scenes_metadata (serverFetch all) dir WriteOutcome.success ts).outcome
          = Except.ok none) ∧
    (all = [] →
      (get_scenes_metadata (serverFetch all) dir WriteOutcome.success ts).results = []) := by
  obtain ⟨hsave, hout⟩ := run_server_outcome all dir ts WriteOutcome.success hwf
  refine ⟨?_, ?_, ?_⟩
  · intro hr
    refine ⟨by rw [hsave, if_neg hr], ?_⟩
    refine ⟨(if dir.data.getLast? = some '/' then dir else dir ++ "/")
      ++ ("stash_metadata_" ++ ts ++ ".json"), ?_⟩
    rw [hout, if_neg hr]
    rfl
  · intro hr
    exact ⟨by rw [hsave, if_pos hr], by rw [hout, if_pos hr]⟩
  · intro h
    subst h
    rw [run_server_results [] dir ts WriteOutcome.success hwf]
    rfl

/-- Witness for C6 at a one-record catalog: results are non-empty, the
data is handed to persistence and a file path is returned. -/
theorem claim6_witness :
    (∀ sc ∈ [sceneWF], sc.files ≠ []) ∧
    ((get_scenes_metadata (serverFetch [sceneWF]) "out" WriteOutcome.success "ts").savedData
        = some (get_scenes_metadata (serverFetch [sceneWF]) "out" WriteOutcome.success "ts").results ∧
      ∃ p, (get_scenes_metadata (serverFetch [sceneWF]) "out" WriteOutcome.success "ts").outcome
        = Except.ok (some p)) :=
  ⟨by simp [sceneWF],
   (claim6 [sceneWF] "out" "ts" (by simp [sceneWF])).1
     (by rw [run_one_eval]; simp)⟩

/-- C7: for a record whose first file descriptor has path `p`, the
transform keeps exactly the last path segment of `p` as `filename`
(applying the split after `basename` changes nothing), uses the raw title
when it is present and non-empty, and falls back to `filename` otherwise. -/
theorem claim7 (scene : RawScene) (file : RawFile) (rest : List RawFile)
    (h : scene.files = file :: rest) :
    ∃ m, extract_scene_metadata scene = some m ∧
      m.filename = basename file.path ∧
      ((scene.title = none ∨ scene.title = some "") → m.title = m.filename) ∧
      (∀ t, scene.title = some t → t ≠ "" → m.title = t) := by
  obtain ⟨i, topt, fs, sp⟩ := scene
  simp only at h
  subst h
  refine ⟨_, rfl, ?_, ?_, ?_⟩
  · exact splitSlashLast_basename file.path
  · intro h0
    rcases h0 with h0 | h0 <;> simp only at h0 <;> subst h0 <;> rfl
  · intro t ht hne
    simp only at ht
    subst ht
    simp [titleOrFilename, hne]

/-- Witness for C7 at the specification's scenario record: empty title,
file path "/videos/clip01/movie.mp4", so title = filename = "movie.mp4". -/
theorem claim7_witness :
    (∃ m, extract_scene_metadata scene0 = some m ∧
      m.filename = basename file0.path ∧
      ((scene0.title = none ∨ scene0.title = some "") → m.title = m.filename) ∧
      (∀ t, scene0.title = some t → t ≠ "" → m.title = t)) ∧
    extract_scene_metadata scene0 = some
      { id := "x", title := "movie.mp4", filename := "movie.mp4",
        duration := 5, sprites := "sp" } :=
  ⟨claim7 scene0 file0 [] rfl, by decide⟩

/-- C8 (code bug): a failing JSON write does not surface as a structured
failure.  An `OSError` (disk full, permissions) is not matched by the
`except requests.exceptions.RequestException` clause of `save_json`, so it
propagates out of `main` as an unhandled crash; and the one exception the
clause does catch would be swallowed into a success exit ("ok"), not a
failure report. -/
theorem claim8_code_eval :
    main_exportAll (serverFetch [sceneWF]) WriteOutcome.osError "out" "ts"
        = .error .osError ∧
    save_json "out" [normWF] "f.json" WriteOutcome.osError = .error .osError ∧
    save_json "out" [normWF] "f.json" WriteOutcome.requestException = .ok none ∧
    main_exportAll (serverFetch [sceneWF]) WriteOutcome.requestException "out" "ts"
        = .ok (.output "ok") := by
  refine ⟨?_, rfl, rfl, ?_⟩
  · simp only [main_exportAll, run_one_eval]
    rfl
  · simp only [main_exportAll, run_one_eval]
    rfl

/-- C9: every progress value handed to the observability collaborator
lies in [0, 1]: the `progress` branch of `stash_log` clamps its argument
by `min(max(0, x), 1)` before calling `log.progress`. -/
theorem claim9 (fetch : Nat → Nat × List RawScene) (dir ts : String)
    (w : WriteOutcome) (v : Rat)
    (h : v ∈ progressEmitted (get_scenes_metadata fetch dir w ts)) :
    0 ≤ v ∧ v ≤ 1 := by
  rw [progressEmitted] at h
  rcases List.mem_map.1 h with ⟨x, -, rfl⟩
  rw [stash_log_progress]
  exact ⟨le_min (le_max_left 0 x) zero_le_one, min_le_right _ _⟩

/-- Witness for C9: the one-scene run emits exactly the clamped value 1. -/
theorem claim9_witness :
    (1 : Rat) ∈ progressEmitted
      (get_scenes_metadata (serverFetch [sceneWF]) "out" WriteOutcome.success "ts") ∧
    (0 ≤ (1 : Rat) ∧ (1 : Rat) ≤ 1) := by
  have hc : stash_log_progress 2 = 1 := by
    rw [stash_log_progress]
    rw [max_eq_right (by norm_num : (0 : Rat) ≤ 2)]
    rw [min_eq_right (by norm_num : (1 : Rat) ≤ 2)]
  have hm : (1 : Rat) ∈ progressEmitted
      (get_scenes_metadata (serverFetch [sceneWF]) "out" WriteOutcome.success "ts") := by
    rw [progressEmitted, run_one_eval]
    simp [hc]
  exact ⟨hm, claim9 (serverFetch [sceneWF]) "out" "ts" WriteOutcome.success 1 hm⟩

/-- C10: the payload of the terminating fetch — the first page `p` with
`batch * (p - 1) ≥ total` — is never transformed or appended: two servers
that report the same count and agree on all pages strictly before the
terminating one produce identical runs (same fetch count, progress trace,
results, persistence and outcome), whatever the terminating page holds. -/
theorem claim10 (f g : Nat → Nat × List RawScene) (dir ts : String)
    (w : WriteOutcome)
    (hcount : (f 1).1 = (g 1).1)
    (hagree : ∀ p, 0 < p → batch * (p - 1) < (f 1).1 → f p = g p) :
    get_scenes_metadata f dir w ts = get_scenes_metadata g dir w ts := by
  have hloop := scenesLoop_congr f g (f 1).1 hagree ((f 1).1 - batch * 0) 0 rfl
  simp only [get_scenes_metadata]
  rw [← hcount, hloop]

/-- Witness for C10: the empty consistent server against a server that
reports count 0 but stuffs a record into every page — the terminating
(first) fetch's payload differs, the runs coincide. -/
theorem claim10_witness :
    (serverFetch ([] : List RawScene) 1).1 = (junkFetch 1).1 ∧
    get_scenes_metadata (serverFetch []) "out" WriteOutcome.success "ts"
      = get_scenes_metadata junkFetch "out" WriteOutcome.success "ts" :=
  ⟨rfl, claim10 (serverFetch []) junkFetch "out" "ts" WriteOutcome.success rfl
    (fun _ _ hlt => absurd hlt (Nat.not_lt_zero _))⟩

end SceneExport
